import Mathlib

/-!
Shallow embedding of the Personalised Learning Assistant core
(`learning_assistant/agents/quiz_agent.py`, `learning_assistant/tools.py`,
`learning_assistant/agents/personalisation_engine.py`).

Python strings are modelled as `List Char`; Python floats as `ℚ`
(exact rational arithmetic); Python dictionaries as association lists
preserving insertion order; code that can raise returns `Option`
(`none` models an uncaught exception).
-/

/-- Characters stripped by Python `str.strip()` (for the ASCII inputs involved). -/
def isPySpace (c : Char) : Bool :=
  c = ' ' || c = '\t' || c = '\n' || c = '\r' || c = '\x0b' || c = '\x0c'

/-- Python `s.strip()`. -/
def pyTrim (s : List Char) : List Char :=
  ((s.dropWhile isPySpace).reverse.dropWhile isPySpace).reverse

/-- Python `s.startswith(p)` (`p` a literal). -/
def startsWithL : List Char → List Char → Bool
  | [], _ => true
  | _ :: _, [] => false
  | p :: ps, x :: xs => p = x && startsWithL ps xs

/-- Python `s.split(c)` for a one-character separator (keeps empty pieces). -/
def splitOnChar (c : Char) : List Char → List (List Char)
  | [] => [[]]
  | x :: xs =>
    if x = c then [] :: splitOnChar c xs
    else
      match splitOnChar c xs with
      | [] => [[x]]
      | y :: ys => (x :: y) :: ys

/-- Python `s.split("---")`: left-to-right, non-overlapping, keeps empty pieces. -/
def splitDashes : List Char → List (List Char)
  | [] => [[]]
  | '-' :: '-' :: '-' :: xs => [] :: splitDashes xs
  | x :: xs =>
    match splitDashes xs with
    | [] => [[x]]
    | y :: ys => (x :: y) :: ys

/-- Python `s.split(c, 1)[1]` when the separator is known to occur (text after
the first colon); `[]` when there is no colon. -/
def afterFirstColon : List Char → List Char
  | [] => []
  | ':' :: xs => xs
  | _ :: xs => afterFirstColon xs

/-- Python `s.upper()` (per-character ASCII upper-casing). -/
def strUpper (s : List Char) : List Char := s.map Char.toUpper

/-!
Quiz Parser (`QuizAgent._parse_quiz`, quiz_agent.py lines 77-132).
-/

/-- A parsed quiz question, exactly the dictionary built by `_parse_quiz`:
`{"question": ..., "options": {...}, "correct": ..., "explanation": ...}`.
The options dictionary is an insertion-ordered association list. -/
structure QuizQuestion where
  question : List Char
  options : List (Char × List Char)
  correct : List Char
  explanation : List Char
deriving DecidableEq

/-- Python dict assignment `question["options"][key] = value`: overwrite in
place if the key exists, otherwise append. -/
def insertOpt (opts : List (Char × List Char)) (k : Char) (v : List Char) :
    List (Char × List Char) :=
  if opts.any (fun p => p.1 == k) then
    opts.map (fun p => if p.1 == k then (k, v) else p)
  else opts ++ [(k, v)]

/-- First loop of `_parse_quiz`: find the first line starting with `Q` or
`Question`; the question text is what follows the first colon (stripped), or
the whole line if there is no colon; `[]` if no such line exists (the
`question` field keeps its initial empty value). -/
def findQuestion : List (List Char) → List Char
  | [] => []
  | l :: ls =>
    if startsWithL "Q".data l || startsWithL "Question".data l then
      if l.any (fun c => c = ':') then pyTrim (afterFirstColon l) else l
    else findQuestion ls

/-- Second loop of `_parse_quiz`: accumulate options, correct letter and
explanation over all lines. A line `Correct:` whose text after the first
colon strips to the empty string makes Python raise `IndexError` at
`correct_text[0]`; that uncaught exception is modelled as `none`. -/
def parseMeta : List (List Char) → List (Char × List Char) → List Char →
    List Char → Option (List (Char × List Char) × List Char × List Char)
  | [], opts, corr, expl => some (opts, corr, expl)
  | l :: ls, opts, corr, expl =>
    if startsWithL "A)".data l || startsWithL "B)".data l ||
        startsWithL "C)".data l || startsWithL "D)".data l then
      parseMeta ls (insertOpt opts (l.headD 'A') (pyTrim (l.drop 2))) corr expl
    else if startsWithL "Correct:".data l then
      match pyTrim (((splitOnChar ':' l).drop 1).headD []) with
      | [] => none
      | c :: _ => parseMeta ls opts [c.toUpper] expl
    else if startsWithL "Explanation:".data l then
      parseMeta ls opts corr (pyTrim (afterFirstColon l))
    else parseMeta ls opts corr expl

/-- The stripped, non-empty lines of a block:
`[l.strip() for l in block.strip().split(chr 10) if l.strip()]`. -/
def blockLines (b : List Char) : List (List Char) :=
  ((splitOnChar '\n' (pyTrim b)).map pyTrim).filter (fun l => !l.isEmpty)

/-- One iteration of the block loop of `_parse_quiz`. `some none`: the block
is skipped; `some (some q)`: `q` is appended; `none`: an exception escapes. -/
def parseBlock (b : List Char) : Option (Option QuizQuestion) :=
  if (pyTrim b).isEmpty then some none
  else
    let lines := blockLines b
    if lines.length < 6 then some none
    else
      match parseMeta lines [] [] [] with
      | none => none
      | some (opts, corr, expl) =>
        let q := findQuestion lines
        if !q.isEmpty && !opts.isEmpty && !corr.isEmpty then
          some (some ⟨q, opts, corr, expl⟩)
        else some none

/-- The block loop of `_parse_quiz`, left to right. -/
def goBlocks : List (List Char) → Option (List QuizQuestion)
  | [] => some []
  | b :: bs =>
    match parseBlock b with
    | none => none
    | some none => goBlocks bs
    | some (some q) => (goBlocks bs).map (fun qs => q :: qs)

/-- `QuizAgent._parse_quiz`: split on `---` and process each block; `none`
models an uncaught exception. -/
def parse_quiz (quiz_text : List Char) : Option (List QuizQuestion) :=
  goBlocks (splitDashes quiz_text)

/-!
Quiz Evaluator (`QuizAgent.evaluate_answer` / `QuizAgent.evaluate_quiz`,
quiz_agent.py lines 134-195).
-/

/-- Result dictionary of `evaluate_answer`. -/
structure EvalAnswer where
  correct : Bool
  explanation : List Char
  correct_answer : List Char
deriving DecidableEq

/-- `QuizAgent.evaluate_answer`: case-insensitive comparison of the submitted
label with the correct label. (For a `QuizQuestion` the `explanation` key is
always present, so `question.get("explanation", ...)` returns it.) -/
def evaluate_answer (question : QuizQuestion) (user_answer : List Char) :
    EvalAnswer :=
  { correct := strUpper user_answer == strUpper question.correct
  , explanation := question.explanation
  , correct_answer := question.correct }

/-- Per-question result dictionary built in `evaluate_quiz`. -/
structure ItemResult where
  question_num : Nat
  question : List Char
  user_answer : List Char
  correct_answer : List Char
  is_correct : Bool
  explanation : List Char
deriving DecidableEq

/-- Python `user_answers.get(i, "")`. -/
def lookupAns (user_answers : List (Nat × List Char)) (i : Nat) : List Char :=
  (user_answers.lookup i).getD []

/-- The `for i, question in enumerate(questions)` loop of `evaluate_quiz`,
started at index `i`. -/
def evalItems (user_answers : List (Nat × List Char)) :
    Nat → List QuizQuestion → List ItemResult
  | _, [] => []
  | i, q :: qs =>
    let ua := lookupAns user_answers i
    let ev := evaluate_answer q ua
    { question_num := i + 1
    , question := q.question
    , user_answer := ua
    , correct_answer := ev.correct_answer
    , is_correct := ev.correct
    , explanation := ev.explanation } :: evalItems user_answers (i + 1) qs

/-- Result dictionary of `evaluate_quiz`. -/
structure QuizResult where
  score : Nat
  total : Nat
  percentage : ℚ
  results : List ItemResult
deriving DecidableEq

/-- `QuizAgent.evaluate_quiz`: grade every question; the division by
`len(questions)` is guarded by the `if questions else 0` conditional. -/
def evaluate_quiz (questions : List QuizQuestion)
    (user_answers : List (Nat × List Char)) : QuizResult :=
  let results := evalItems user_answers 0 questions
  let score := results.countP (fun r => r.is_correct)
  { score := score
  , total := questions.length
  , percentage :=
      if questions.isEmpty then 0
      else (score : ℚ) / (questions.length : ℚ) * 100
  , results := results }

/-!
Difficulty Policy and Progress Store (tools.py, personalisation_engine.py).
-/

/-- A quiz score dictionary as appended by `update_quiz_score`. -/
structure QuizScore where
  topic : String
  score : Int
  total : Int
  percentage : ℚ
  timestamp : String
deriving DecidableEq

/-- Python slice `xs[-n:]` for a non-negative count `n`: the last
`min(n, len xs)` elements — except that `xs[-0:]` is the whole list. -/
def pyLastSlice (n : Nat) (xs : List QuizScore) : List QuizScore :=
  if n = 0 then xs else xs.drop (xs.length - n)

/-- `calculate_difficulty` (tools.py lines 65-87): mean percentage of the
recent scores against the thresholds 85 and 70. The Python default for
`recent_count` is 3; `PersonalisationEngine._calculate_difficulty` passes
`config.RECENT_SCORES_COUNT = 3`, the same value. -/
def calculate_difficulty (quiz_scores : List QuizScore)
    (recent_count : Nat) : String :=
  if quiz_scores.isEmpty then "beginner"
  else
    let recent := pyLastSlice recent_count quiz_scores
    let avg := ((recent.map (fun q => q.percentage)).sum) / (recent.length : ℚ)
    if 85 ≤ avg then "advanced"
    else if 70 ≤ avg then "intermediate"
    else "beginner"

/-- The user progress record persisted per user id. -/
structure Progress where
  topics_studied : List String
  quiz_scores : List QuizScore
  current_difficulty : String
  total_time : Nat
deriving DecidableEq

/-- The default record returned by `load_user_progress` for an unseen user. -/
def defaultProgress : Progress :=
  { topics_studied := []
  , quiz_scores := []
  , current_difficulty := "beginner"
  , total_time := 0 }

/-- The parsed contents of `data/progress.json`: a mapping from user id to
progress record, modelled as an insertion-ordered association list. -/
abbrev StoreData : Type := List (String × Progress)

/-- Python dict lookup `data.get(user_id, ...)` on the persisted mapping. -/
def dictGet : StoreData → String → Option Progress
  | [], _ => none
  | (k, v) :: tl, uid => if k = uid then some v else dictGet tl uid

/-- Python dict assignment `data[user_id] = progress`: replace the value at
an existing key in place, append an absent key at the end (a Python dict has
unique keys; on the association list this is first-match replacement). -/
def dictSet : StoreData → String → Progress → StoreData
  | [], uid, p => [(uid, p)]
  | (k, v) :: tl, uid, p =>
    if k = uid then (uid, p) :: tl else (k, v) :: dictSet tl uid p

/-- `load_user_progress` (tools.py lines 14-39): `data.get(user_id, default)`.
The file-system bootstrap (creating an empty JSON file) is outside the model;
`data` is the parsed mapping. -/
def load_user_progress (data : StoreData) (user_id : String) : Progress :=
  (dictGet data user_id).getD defaultProgress

/-- `save_user_progress` (tools.py lines 42-62): `data[user_id] = progress`
followed by rewriting the file. Python dict assignment updates an existing
key in place and appends an absent one. -/
def save_user_progress (data : StoreData) (user_id : String)
    (progress : Progress) : StoreData :=
  dictSet data user_id progress

/-- The successive mutations `update_quiz_score` applies to the loaded
progress dictionary: append the new score record, record the topic, and
recompute `current_difficulty` over the full updated history with the
window 3 (`config.RECENT_SCORES_COUNT`, also the `calculate_difficulty`
default). -/
def updatedProgress (progress : Progress) (topic : String)
    (score total : Int) (now : String) : Progress :=
  let p1 : Progress :=
    { progress with
      quiz_scores := progress.quiz_scores ++
        [{ topic := topic, score := score, total := total
         , percentage := (score : ℚ) / (total : ℚ) * 100
         , timestamp := now }] }
  let p2 : Progress :=
    if topic ∈ p1.topics_studied then p1
    else { p1 with topics_studied := p1.topics_studied ++ [topic] }
  { p2 with current_difficulty := calculate_difficulty p2.quiz_scores 3 }

/-- `update_quiz_score` (tools.py lines 90-122; identically
`PersonalisationEngine.update_quiz_score`, which recomputes the difficulty
with `config.RECENT_SCORES_COUNT = 3`, the same window as the tools-level
default). `now` is the `datetime.now().isoformat()` timestamp, passed
explicitly. `score / total` raises `ZeroDivisionError` when `total == 0`,
modelled as `none`; no other validation of `score` or `total` is performed.
Returns the written store together with the returned progress dictionary. -/
def update_quiz_score (data : StoreData) (user_id topic : String)
    (score total : Int) (now : String) : Option (StoreData × Progress) :=
  let progress := load_user_progress data user_id
  if total = 0 then none
  else
    let p := updatedProgress progress topic score total now
    some (save_user_progress data user_id p, p)

/-- `PersonalisationEngine.reset_progress` (personalisation_engine.py lines
166-179): save a fresh default record for the user. -/
def reset_progress (data : StoreData) (user_id : String) : StoreData :=
  save_user_progress data user_id
    { topics_studied := []
    , quiz_scores := []
    , current_difficulty := "beginner"
    , total_time := 0 }

/-!
Definitions modelled from the spec, for comparison with the code.
-/

/-- Modelled from the spec: the `QuizQuestion` invariant — `correct` is a key
of `options`, `options` has at least 2 entries, `question` is non-empty. -/
def specQuizInvariant (q : QuizQuestion) : Prop :=
  (∃ p ∈ q.options, q.correct = [p.1]) ∧ 2 ≤ q.options.length ∧ q.question ≠ []

instance (q : QuizQuestion) : Decidable (specQuizInvariant q) := by
  unfold specQuizInvariant; infer_instance

/-- Modelled from the spec: the last `min(w, len H)` entries of `H`. -/
def specLastMin (w : Nat) (H : List QuizScore) : List QuizScore :=
  H.drop (H.length - min w H.length)

/-!
Concrete inputs used by counterexamples and witnesses.
-/

/-- A six-line block whose declared correct letter `E` is not among its own
options and which has a single option line. -/
def c1input : List Char :=
  "Q1: What?\nA) foo\nCorrect: E\nExplanation: blah\nfiller one\nfiller two".data

/-- The question `_parse_quiz` builds for `c1input`. -/
def c1q : QuizQuestion :=
  ⟨"What?".data, [('A', "foo".data)], "E".data, "blah".data⟩

/-- A six-line block whose `Correct:` line has nothing after the colon. -/
def c2input : List Char :=
  "Q1: sample\nA) one\nB) two\nC) three\nD) four\nCorrect:".data

/-- A block with exactly one question line, two option lines and one
correct-answer line whose letter is among the parsed options. -/
def c6minimal : List Char := "Q1: q?\nA) x\nB) y\nCorrect: A".data

/-- The same minimal block padded to six non-empty lines with an explanation
line and one filler line. -/
def c6padded : List Char :=
  "Q1: q?\nA) x\nB) y\nCorrect: A\nExplanation: because\nEnd of question".data

/-- The question `_parse_quiz` builds for `c6padded`. -/
def c6q : QuizQuestion :=
  ⟨"q?".data, [('A', "x".data), ('B', "y".data)], "A".data, "because".data⟩

/-- A well-formed two-option question used to exercise the evaluator. -/
def c5q : QuizQuestion :=
  ⟨"q".data, [('A', "x".data), ('B', "y".data)], "A".data, "e".data⟩

/-- A quiz record with percentage 90. -/
def c4r90 : QuizScore := ⟨"t", 9, 10, 90, "ts"⟩

/-- A quiz record with percentage 50. -/
def c4r50 : QuizScore := ⟨"t", 1, 2, 50, "ts"⟩

/-!
Helper lemmas.
-/

lemma isEmpty_eq_true_iff {α : Type} (l : List α) : l.isEmpty = true ↔ l = [] := by
  cases l <;> simp

lemma isEmpty_eq_false_iff {α : Type} (l : List α) : l.isEmpty = false ↔ l ≠ [] := by
  cases l <;> simp

lemma dictGet_set_self (data : StoreData) (uid : String) (p : Progress) :
    dictGet (dictSet data uid p) uid = some p := by
  induction data with
  | nil => simp [dictSet, dictGet]
  | cons kv tl ih =>
    obtain ⟨k, v⟩ := kv
    by_cases hk : k = uid
    · simp [dictSet, dictGet, hk]
    · simp [dictSet, dictGet, hk, ih]

lemma load_save_self (data : StoreData) (uid : String) (p : Progress) :
    load_user_progress (save_user_progress data uid p) uid = p := by
  unfold load_user_progress save_user_progress
  rw [dictGet_set_self]
  rfl

lemma dictGet_set_other (data : StoreData) (uid : String) (p : Progress)
    (other : String) (h : other ≠ uid) :
    dictGet (dictSet data uid p) other = dictGet data other := by
  have huo : uid ≠ other := Ne.symm h
  induction data with
  | nil => simp [dictSet, dictGet, huo]
  | cons kv tl ih =>
    obtain ⟨k, v⟩ := kv
    by_cases hk : k = uid
    · have hko : k ≠ other := by rw [hk]; exact huo
      simp [dictSet, dictGet, hk, hko, huo]
    · by_cases ho : k = other
      · simp [dictSet, dictGet, hk, ho, h]
      · simp [dictSet, dictGet, hk, ho, ih]

lemma updatedProgress_quiz_scores (progress : Progress) (topic : String)
    (score total : Int) (now : String) :
    (updatedProgress progress topic score total now).quiz_scores =
      progress.quiz_scores ++
        [{ topic := topic, score := score, total := total
         , percentage := (score : ℚ) / (total : ℚ) * 100
         , timestamp := now }] := by
  unfold updatedProgress
  by_cases hm : topic ∈ progress.topics_studied <;> simp [hm]

lemma updatedProgress_difficulty (progress : Progress) (topic : String)
    (score total : Int) (now : String) :
    (updatedProgress progress topic score total now).current_difficulty =
      calculate_difficulty
        (updatedProgress progress topic score total now).quiz_scores 3 := by
  unfold updatedProgress
  by_cases hm : topic ∈ progress.topics_studied <;> simp [hm]

lemma not_isEmpty_ne {α : Type} (l : List α) (h : (!l.isEmpty) = true) :
    l ≠ [] := by
  cases l <;> simp_all

lemma parseBlock_some_some (b : List Char) (q : QuizQuestion)
    (h : parseBlock b = some (some q)) :
    q.question ≠ [] ∧ q.options ≠ [] ∧ q.correct ≠ [] := by
  simp only [parseBlock] at h
  split at h
  · simp at h
  · split at h
    · simp at h
    · split at h
      · simp at h
      · split at h
        · rename_i opts corr expl hmeta hcond
          simp only [Option.some.injEq] at h
          subst h
          simp only [Bool.and_eq_true] at hcond
          obtain ⟨⟨hf, ho⟩, hc⟩ := hcond
          exact ⟨not_isEmpty_ne _ hf, not_isEmpty_ne _ ho, not_isEmpty_ne _ hc⟩
        · simp at h

lemma goBlocks_mem (bs : List (List Char)) (qs : List QuizQuestion)
    (h : goBlocks bs = some qs) :
    ∀ q ∈ qs, q.question ≠ [] ∧ q.options ≠ [] ∧ q.correct ≠ [] := by
  induction bs generalizing qs with
  | nil =>
    simp only [goBlocks, Option.some.injEq] at h
    subst h
    simp
  | cons b bs ih =>
    simp only [goBlocks] at h
    cases hpb : parseBlock b with
    | none =>
      rw [hpb] at h
      exact absurd h (by simp)
    | some o =>
      rw [hpb] at h
      cases o with
      | none => exact ih qs h
      | some q0 =>
        cases hgb : goBlocks bs with
        | none =>
          rw [hgb] at h
          exact absurd h (by simp)
        | some rest =>
          rw [hgb] at h
          simp only [Option.map_some', Option.some.injEq] at h
          subst h
          intro q hq
          rcases List.mem_cons.mp hq with hq0 | hrest
          · subst hq0
            exact parseBlock_some_some b q hpb
          · exact ih rest hgb q hrest

lemma parseBlock_short (b : List Char) (h : (blockLines b).length < 6) :
    parseBlock b = some none := by
  by_cases h1 : (pyTrim b).isEmpty
  · simp [parseBlock, h1]
  · simp [parseBlock, h1, h]

lemma goBlocks_short (bs : List (List Char))
    (h : ∀ b ∈ bs, (blockLines b).length < 6) : goBlocks bs = some [] := by
  induction bs with
  | nil => rfl
  | cons b tl ih =>
    simp only [goBlocks]
    rw [parseBlock_short b (h b (by simp))]
    exact ih (fun b2 hb2 => h b2 (by simp [hb2]))

lemma evalItems_getElem (m : List (Nat × List Char)) (qs : List QuizQuestion) :
    ∀ (k i : Nat),
      (evalItems m k qs)[i]? = (qs[i]?).map (fun q =>
        { question_num := k + i + 1
        , question := q.question
        , user_answer := lookupAns m (k + i)
        , correct_answer := q.correct
        , is_correct := strUpper (lookupAns m (k + i)) == strUpper q.correct
        , explanation := q.explanation }) := by
  induction qs with
  | nil => intro k i; simp [evalItems]
  | cons q t ih =>
    intro k i
    cases i with
    | zero => simp [evalItems, evaluate_answer]
    | succ j =>
      simp only [evalItems, List.getElem?_cons_succ]
      rw [ih (k + 1) j]
      have e : k + 1 + j = k + (j + 1) := by omega
      rw [e]

lemma pyLastSlice_pos (w : Nat) (hw : 1 ≤ w) (H : List QuizScore) :
    pyLastSlice w H = specLastMin w H := by
  unfold pyLastSlice specLastMin
  rw [if_neg (by omega)]
  congr 1
  omega

lemma specLastMin_nil_iff (w : Nat) (hw : 1 ≤ w) (H : List QuizScore) :
    specLastMin w H = [] ↔ H = [] := by
  constructor
  · intro h
    have hl := congrArg List.length h
    simp only [specLastMin, List.length_drop, List.length_nil] at hl
    cases H with
    | nil => rfl
    | cons a t =>
      exfalso
      have h1 : min w (a :: t).length ≤ (a :: t).length := Nat.min_le_right _ _
      have h2 : 1 ≤ min w (a :: t).length :=
        Nat.le_min.mpr ⟨hw, by simp⟩
      omega
  · intro h
    subst h
    simp [specLastMin]

lemma calculate_difficulty_eq (H : List QuizScore) (w : Nat) (hw : 1 ≤ w) :
    calculate_difficulty H w =
      if H.isEmpty then "beginner"
      else
        if 85 ≤ ((specLastMin w H).map (fun q => q.percentage)).sum /
            ((specLastMin w H).length : ℚ) then "advanced"
        else if 70 ≤ ((specLastMin w H).map (fun q => q.percentage)).sum /
            ((specLastMin w H).length : ℚ) then "intermediate"
        else "beginner" := by
  unfold calculate_difficulty
  rw [pyLastSlice_pos w hw H]

/-!
Claim theorems.
-/

/-- C1 counterexample: on `c1input` (a six-line block with a single option
`A` and declared correct letter `E`) the parser returns a question whose
`correct` label is not a key of its `options` map and whose `options` map
has fewer than 2 entries, instead of discarding the block. -/
theorem c1_parse_admits_invalid_question :
    parse_quiz c1input = some [c1q] ∧ ¬ specQuizInvariant c1q := by
  constructor
  · decide
  · decide

/-- C1 (amended): every question returned by the quiz parser has non-empty
question text, a non-empty options map and a non-empty correct label — the
acceptance check at quiz_agent.py line 129; the parser does not check that
the correct label is a key of the options map, nor that the options map has
at least 2 entries, so blocks violating those two invariant clauses are
returned rather than discarded. -/
theorem c1_parse_quiz_fields_nonempty (txt : List Char)
    (qs : List QuizQuestion) (hp : parse_quiz txt = some qs) :
    ∀ q ∈ qs, q.question ≠ [] ∧ q.options ≠ [] ∧ q.correct ≠ [] :=
  goBlocks_mem (splitDashes txt) qs hp

/-- C1 witness: the guarantee of the amended claim evaluated on `c1input`. -/
theorem c1_parse_quiz_fields_nonempty_witness :
    parse_quiz c1input = some [c1q] ∧
      (∀ q ∈ [c1q], q.question ≠ [] ∧ q.options ≠ [] ∧ q.correct ≠ []) :=
  ⟨by decide, c1_parse_quiz_fields_nonempty c1input [c1q] (by decide)⟩

/-- C2: refuted on the code — the parser can raise. A block with six
non-empty lines whose `Correct:` line has nothing after the colon makes
`_parse_quiz` evaluate `correct_text[0]` on an empty string, raising
`IndexError` (quiz_agent.py line 124); in the model the uncaught exception
is the `none` result, not a (possibly empty) question sequence. -/
theorem c2_parse_quiz_raises_on_empty_correct : parse_quiz c2input = none := by
  decide

/-- C3 counterexample: an update with `total = -1` is not rejected — the
write happens and a quiz record with non-positive `total` is persisted into
`quiz_scores`. -/
theorem c3_update_persists_nonpositive_total :
    (update_quiz_score [] "u" "t" 3 (-1) "ts").map
      (fun sp => (load_user_progress sp.1 "u").quiz_scores.any
        (fun r => decide (r.total ≤ 0))) = some true := by
  decide

/-- C3 (amended): the only rejected total is 0 — `score / total` raises
`ZeroDivisionError` before any write, so no `total = 0` record is ever
persisted — while any non-zero total, including negative ones, passes
with no validation error and its record is appended to the persisted
`quiz_scores`. -/
theorem c3_update_total_validation (data : StoreData) (user_id topic : String)
    (score total : Int) (now : String) (h : total ≠ 0) :
    update_quiz_score data user_id topic score 0 now = none ∧
    ∃ sp, update_quiz_score data user_id topic score total now = some sp ∧
      (load_user_progress sp.1 user_id).quiz_scores.map (fun r => r.total) =
        (load_user_progress data user_id).quiz_scores.map (fun r => r.total)
          ++ [total] := by
  constructor
  · simp [update_quiz_score]
  · refine ⟨(save_user_progress data user_id
      (updatedProgress (load_user_progress data user_id) topic score total now),
      updatedProgress (load_user_progress data user_id) topic score total now),
      ?_, ?_⟩
    · simp [update_quiz_score, h]
    · rw [load_save_self, updatedProgress_quiz_scores]
      simp

/-- C3 witness: the amended claim evaluated at `total = 2` on the empty
store. -/
theorem c3_update_total_validation_witness :
    ((2 : Int) ≠ 0) ∧
      (update_quiz_score [] "u" "t" 1 0 "now" = none ∧
        ∃ sp, update_quiz_score [] "u" "t" 1 2 "now" = some sp ∧
          (load_user_progress sp.1 "u").quiz_scores.map (fun r => r.total) =
            (load_user_progress [] "u").quiz_scores.map (fun r => r.total)
              ++ [2]) :=
  ⟨by decide, c3_update_total_validation [] "u" "t" 1 2 "now" (by decide)⟩

/-- C4 counterexample: at window 0 (the Python slice `[-0:]` is the whole
list) two histories with identical "last `min(w, len H)` entries" (both
empty) produce different difficulties, so the result does not depend only on
those entries as the claim states for every window. -/
theorem c4_window_zero_cex :
    specLastMin 0 [c4r90] = specLastMin 0 [c4r50] ∧
      calculate_difficulty [c4r90] 0 ≠ calculate_difficulty [c4r50] 0 := by
  constructor
  · decide
  · have h90 : calculate_difficulty [c4r90] 0 = "advanced" := by
      norm_num [calculate_difficulty, pyLastSlice, c4r90]
    have h50 : calculate_difficulty [c4r50] 0 = "beginner" := by
      norm_num [calculate_difficulty, pyLastSlice, c4r50]
    rw [h90, h50]
    decide

/-- C4 (amended): for every window `w ≥ 1` the policy returns `beginner` on
an empty history and otherwise applies the 85/70 thresholds top-down to the
arithmetic mean of `percentage` over the last `min(w, len H)` records, and
the result depends only on those records; at `w = 0` the code instead
averages the entire history, so the claim is restricted to `w ≥ 1`. -/
theorem c4_calculate_difficulty_windowed (H : List QuizScore) (w : Nat)
    (hw : 1 ≤ w) :
    (calculate_difficulty H w =
      if H.isEmpty then "beginner"
      else
        if 85 ≤ ((specLastMin w H).map (fun q => q.percentage)).sum /
            ((specLastMin w H).length : ℚ) then "advanced"
        else if 70 ≤ ((specLastMin w H).map (fun q => q.percentage)).sum /
            ((specLastMin w H).length : ℚ) then "intermediate"
        else "beginner") ∧
    ∀ H2 : List QuizScore, specLastMin w H2 = specLastMin w H →
      calculate_difficulty H2 w = calculate_difficulty H w := by
  constructor
  · exact calculate_difficulty_eq H w hw
  · intro H2 he
    rw [calculate_difficulty_eq H w hw, calculate_difficulty_eq H2 w hw, he]
    have hiff : H2 = [] ↔ H = [] := by
      rw [← specLastMin_nil_iff w hw H2, ← specLastMin_nil_iff w hw H, he]
    have hemp : H2.isEmpty = H.isEmpty := by
      by_cases hH : H = []
      · rw [hH, hiff.mpr hH]
      · have hH2 : H2 ≠ [] := fun e => hH (hiff.mp e)
        rw [(isEmpty_eq_false_iff H).mpr hH, (isEmpty_eq_false_iff H2).mpr hH2]
    rw [hemp]

/-- C4 witness: the amended claim evaluated at window 1 on a one-record
history. -/
theorem c4_calculate_difficulty_windowed_witness :
    (1 ≤ 1) ∧
      ((calculate_difficulty [c4r90] 1 =
        if ([c4r90] : List QuizScore).isEmpty then "beginner"
        else
          if 85 ≤ ((specLastMin 1 [c4r90]).map (fun q => q.percentage)).sum /
              ((specLastMin 1 [c4r90]).length : ℚ) then "advanced"
          else if 70 ≤ ((specLastMin 1 [c4r90]).map (fun q => q.percentage)).sum /
              ((specLastMin 1 [c4r90]).length : ℚ) then "intermediate"
          else "beginner") ∧
      ∀ H2 : List QuizScore, specLastMin 1 H2 = specLastMin 1 [c4r90] →
        calculate_difficulty H2 1 = calculate_difficulty [c4r90] 1) :=
  ⟨by decide, c4_calculate_difficulty_windowed [c4r90] 1 (by decide)⟩

/-- C5: for every question list and answer map, the evaluator marks the
answer at index `i` correct exactly when the submitted label equals the
question's correct label case-insensitively, and an index with no submitted
answer is graded incorrect (for a question whose correct label is non-empty,
as every parsed or spec-conforming question's is); the evaluator is a total
function, so no exception is possible. -/
theorem c5_evaluate_quiz_grading (qs : List QuizQuestion)
    (m : List (Nat × List Char)) (i : Nat) (q : QuizQuestion)
    (hq : qs[i]? = some q) (hc : q.correct ≠ []) :
    ∃ r, (evaluate_quiz qs m).results[i]? = some r ∧
      r.is_correct = (strUpper (lookupAns m i) == strUpper q.correct) ∧
      (List.lookup i m = none → r.is_correct = false) := by
  have hres : (evaluate_quiz qs m).results[i]? =
      some { question_num := i + 1
           , question := q.question
           , user_answer := lookupAns m i
           , correct_answer := q.correct
           , is_correct := strUpper (lookupAns m i) == strUpper q.correct
           , explanation := q.explanation } := by
    have h0 : (evaluate_quiz qs m).results = evalItems m 0 qs := rfl
    rw [h0, evalItems_getElem m qs 0 i, hq]
    simp
  refine ⟨_, hres, rfl, ?_⟩
  intro hnone
  have hua : lookupAns m i = [] := by simp [lookupAns, hnone]
  show (strUpper (lookupAns m i) == strUpper q.correct) = false
  rw [hua]
  cases hq2 : q.correct with
  | nil => exact absurd hq2 hc
  | cons c cs => rfl

/-- C5 witness: the grading property evaluated on a one-question quiz with
no submitted answers. -/
theorem c5_evaluate_quiz_grading_witness :
    (([c5q] : List QuizQuestion)[0]? = some c5q) ∧ c5q.correct ≠ [] ∧
      ∃ r, (evaluate_quiz [c5q] []).results[0]? = some r ∧
        r.is_correct = (strUpper (lookupAns [] 0) == strUpper c5q.correct) ∧
        (List.lookup 0 ([] : List (Nat × List Char)) = none →
          r.is_correct = false) :=
  ⟨by decide, by decide,
    c5_evaluate_quiz_grading [c5q] [] 0 c5q (by decide) (by decide)⟩

/-- C6 counterexample: the input `c6minimal` consists of one block with
exactly one question line, two option lines and one correct-answer line
whose letter `A` is among that block's options, yet the parser discards it
(`len(lines) < 6` at quiz_agent.py line 95) and returns no questions. -/
theorem c6_minimal_block_discarded : parse_quiz c6minimal = some [] := by
  decide

/-- C6 (amended): the code's minimum block shape is six non-empty lines
(per the source comment: question, four options, correct, explanation), not
four: every input all of whose blocks have fewer than six non-empty lines
parses to the empty sequence, while the same minimal block padded to six
non-empty lines with an explanation line and a filler line is included. -/
theorem c6_min_six_lines :
    (∀ txt : List Char, (∀ b ∈ splitDashes txt, (blockLines b).length < 6) →
      parse_quiz txt = some []) ∧
    parse_quiz c6padded = some [c6q] := by
  constructor
  · intro txt h
    exact goBlocks_short (splitDashes txt) h
  · decide

/-- C6 witness: the first part of the amended claim evaluated on the
four-line minimal block. -/
theorem c6_min_six_lines_witness :
    (∀ b ∈ splitDashes c6minimal, (blockLines b).length < 6) ∧
      parse_quiz c6minimal = some [] :=
  ⟨by decide, c6_min_six_lines.1 c6minimal (by decide)⟩

/-- C7: evaluating a quiz with zero questions returns score 0, total 0,
percentage 0 and no per-question results — the division by
`len(questions)` is explicitly guarded by the `if questions else 0`
conditional, so no division error can occur. -/
theorem c7_evaluate_quiz_empty (m : List (Nat × List Char)) :
    evaluate_quiz [] m =
      { score := 0, total := 0, percentage := 0, results := [] } :=
  rfl

/-- C8: after every completed quiz-score update the stored record equals the
returned one and its `current_difficulty` equals the Difficulty Policy run
over the record's full updated `quiz_scores` history with window 3 (the
configured `RECENT_SCORES_COUNT`, equal to the tools-level default). -/
theorem c8_update_difficulty_recomputed (data : StoreData)
    (user_id topic : String) (score total : Int) (now : String)
    (h : total ≠ 0) :
    ∃ sp, update_quiz_score data user_id topic score total now = some sp ∧
      load_user_progress sp.1 user_id = sp.2 ∧
      sp.2.current_difficulty = calculate_difficulty sp.2.quiz_scores 3 := by
  refine ⟨(save_user_progress data user_id
    (updatedProgress (load_user_progress data user_id) topic score total now),
    updatedProgress (load_user_progress data user_id) topic score total now),
    ?_, ?_, ?_⟩
  · simp [update_quiz_score, h]
  · exact load_save_self _ _ _
  · exact updatedProgress_difficulty _ _ _ _ _

/-- C8 witness: the invariant evaluated on one update over the empty
store. -/
theorem c8_update_difficulty_recomputed_witness :
    ((2 : Int) ≠ 0) ∧
      ∃ sp, update_quiz_score [] "u" "t" 1 2 "now" = some sp ∧
        load_user_progress sp.1 "u" = sp.2 ∧
        sp.2.current_difficulty = calculate_difficulty sp.2.quiz_scores 3 :=
  ⟨by decide, c8_update_difficulty_recomputed [] "u" "t" 1 2 "now" (by decide)⟩

/-- C9: for every prior store state and user id, reset followed by load
yields exactly the default record with empty topics, empty scores,
difficulty `beginner` and `total_time` 0. -/
theorem c9_reset_then_load (data : StoreData) (user_id : String) :
    load_user_progress (reset_progress data user_id) user_id =
      { topics_studied := [], quiz_scores := []
      , current_difficulty := "beginner", total_time := 0 } :=
  load_save_self data user_id _

/-- C10: saving progress for one user id leaves every other user's record in
the store unchanged. -/
theorem c10_save_frame (data : StoreData) (user_id : String) (p : Progress)
    (other : String) (h : other ≠ user_id) :
    load_user_progress (save_user_progress data user_id p) other =
      load_user_progress data other := by
  unfold load_user_progress save_user_progress
  rw [dictGet_set_other data user_id p other h]

/-- C10 witness: the frame property evaluated on the empty store with two
distinct user ids. -/
theorem c10_save_frame_witness :
    (("b" : String) ≠ "a") ∧
      load_user_progress (save_user_progress [] "a" defaultProgress) "b" =
        load_user_progress [] "b" :=
  ⟨by decide, c10_save_frame [] "a" defaultProgress "b" (by decide)⟩
